import Mathlib

/-!
Shallow embedding of the kleinanzeigen-watcher repository's core logic
(`kleinanzeigen_watcher.py`, and the consent predicate of
`debug_kleinanzeigen.py`), with theorems settling the specification
claims about it.

Python strings are modelled as Lean `String`; `None`-able values as
`Option`; the Google-Sheets Results tab as a list of typed rows.
ASCII is assumed for case folding, digits and whitespace classes, which
matches every string the program manipulates.
-/

namespace KW

/-! ### Python string primitives -/

/-- The whitespace characters stripped by Python `str.strip()` and matched
by the regex class `\s` (ASCII fragment). -/
def isPySpace (c : Char) : Bool :=
  c = ' ' || c = '\t' || c = '\n' || c = '\x0d' || c.toNat = 11 || c.toNat = 12

/-- Python `str.strip()`: drop leading and trailing whitespace. -/
def pyStrip (s : String) : String :=
  ⟨((s.data.dropWhile isPySpace).reverse.dropWhile isPySpace).reverse⟩

/-- Python `str.lower()` (ASCII fragment). -/
def pyLowerChar (c : Char) : Char :=
  if 'A' ≤ c ∧ c ≤ 'Z' then Char.ofNat (c.toNat + 32) else c

/-- Python `str.lower()` on a whole string (ASCII fragment). -/
def pyLower (s : String) : String :=
  ⟨s.data.map pyLowerChar⟩

/-- Python `str.replace(a, b)` where the pattern `a` is a single
character (every `replace` in the sources has a one-character pattern). -/
def pyReplaceChar (s : String) (a : Char) (b : List Char) : String :=
  ⟨s.data.foldr (fun c acc => if c = a then b ++ acc else c :: acc) []⟩

/-- Python `needle in hay` for strings: contiguous-substring test. -/
def containsSub (hay needle : String) : Bool :=
  hay.data.tails.any (fun t => needle.data.isPrefixOf t)

/-- Python `str.split(sep)` for a one-character separator (the meta field
is split on the single character `•`). -/
def splitOnChar (sep : Char) : List Char → List (List Char)
  | [] => [[]]
  | c :: rest =>
    match splitOnChar sep rest with
    | [] => [[]]
    | h :: t => if c = sep then [] :: h :: t else (c :: h) :: t

/-- Numeric value of a digit string (already checked to be all digits). -/
def digitsVal (l : List Char) : Nat :=
  l.foldl (fun a c => a * 10 + (c.toNat - 48)) 0

/-- Python `int(s)` restricted to the shapes arising here: strips
whitespace, then requires a non-empty all-digit string; any other input
raises `ValueError`, modelled as `none` (the caller catches it). -/
def pyInt (s : String) : Option Nat :=
  let t := pyStrip s
  if t ≠ "" ∧ t.data.all Char.isDigit then some (digitsVal t.data) else none

/-! ### Price parsing (`parse_price_eur`, kleinanzeigen_watcher.py:116-131)

The regex is `(\d{1,3}(?:[.\s]\d{3})*|\d+)(?:[,\.]\d{1,2})?`, applied with
`re.search`. Both alternatives of group 1 begin with a digit, so the
leftmost match starts at the first digit of the text; at that position the
first alternative always succeeds (greedy `\d{1,3}`, then greedily
repeated `[.\s]\d{3}` blocks), and the trailing decimal group is optional,
so no backtracking ever revises group 1. -/

/-- The `(?:[.\s]\d{3})*` part of the price regex: greedily consume
separator-plus-three-digit blocks. -/
def priceStarReps : List Char → List Char
  | c :: d1 :: d2 :: d3 :: rest =>
    if (c = '.' || isPySpace c) && d1.isDigit && d2.isDigit && d3.isDigit then
      c :: d1 :: d2 :: d3 :: priceStarReps rest
    else []
  | _ => []

/-- Group 1 of the price regex, matched at a position whose first
character is a digit: up to three leading digits, then the starred
separator blocks. -/
def priceGroup1At (l : List Char) : List Char :=
  let firstPart := (l.takeWhile Char.isDigit).take 3
  firstPart ++ priceStarReps (l.drop firstPart.length)

/-- Model of `re.search` for the price regex: scan for the first digit and take
group 1 there; `none` when the text has no digit. -/
def findPriceGroup1 : List Char → Option (List Char)
  | [] => none
  | c :: rest =>
    if c.isDigit then some (priceGroup1At (c :: rest)) else findPriceGroup1 rest

/-- Model of `parse_price_eur` (kleinanzeigen_watcher.py:116-131). The argument is
`Option String` because Python passes `None` through the falsiness check.
`int(num)` may raise `ValueError`; the source catches it and returns
`None`, so the model returns `none` there. -/
def parse_price_eur (text : Option String) : Option Nat :=
  match text with
  | none => none
  | some s =>
    if s = "" then none
    else if containsSub (pyLower s) "verschenken" then some 0
    else
      let raw := pyStrip (pyReplaceChar s '\xa0' [' '])
      match findPriceGroup1 raw.data with
      | none => none
      | some g => pyInt ⟨g.filter (fun c => c ≠ '.' && c ≠ ' ')⟩

example : parse_price_eur (some "Zu verschenken") = some 0 := by decide
example : parse_price_eur (some "1.250 €") = some 1250 := by decide
example : parse_price_eur (some "") = none := by decide
example : parse_price_eur none = none := by decide
example : parse_price_eur (some "VB") = none := by decide
example : parse_price_eur (some "1234 €") = some 123 := by decide

/-! ### URL construction (`build_search_url`, kleinanzeigen_watcher.py:101-113) -/

/-- Uppercase-hex digit, as `urllib.parse.quote` emits. -/
def hexDigit (n : Nat) : Char :=
  if n < 10 then Char.ofNat (48 + n) else Char.ofNat (55 + n)

/-- UTF-8 bytes of a character's code point. -/
def utf8Bytes (c : Char) : List Nat :=
  let n := c.toNat
  if n < 128 then [n]
  else if n < 2048 then [192 + n / 64, 128 + n % 64]
  else if n < 65536 then [224 + n / 4096, 128 + n / 64 % 64, 128 + n % 64]
  else [240 + n / 262144, 128 + n / 4096 % 64, 128 + n / 64 % 64, 128 + n % 64]

/-- How `urllib.parse.quote_plus` renders one UTF-8 byte: ASCII
alphanumerics and `_.-~` pass through, a space becomes `+`, everything
else is percent-encoded. -/
def quotePlusByte (n : Nat) : List Char :=
  if (48 ≤ n ∧ n ≤ 57) ∨ (65 ≤ n ∧ n ≤ 90) ∨ (97 ≤ n ∧ n ≤ 122) ∨
      n = 95 ∨ n = 46 ∨ n = 45 ∨ n = 126 then [Char.ofNat n]
  else if n = 32 then ['+']
  else ['%', hexDigit (n / 16), hexDigit (n % 16)]

/-- Model of `urllib.parse.quote_plus` with its default arguments. -/
def quote_plus (s : String) : String :=
  ⟨((s.data.map (fun c => ((utf8Bytes c).map quotePlusByte).flatten)).flatten)⟩

/-- The constant `BASE_HOST` (kleinanzeigen_watcher.py:26). -/
def BASE_HOST : String := "https://www.kleinanzeigen.de"

/-- The part of the search URL built before the radius and price tokens
(kleinanzeigen_watcher.py:102-106): slug, encoded query, category token,
optional location-id token. -/
def search_url_stem (query location_str : String) (loc_id : Option String) : String :=
  let q := quote_plus query
  let slug0 := pyReplaceChar (pyLower (pyStrip location_str)) ' ' ['-']
  let slug := if slug0 = "" then "deutschland" else slug0
  let base := BASE_HOST ++ "/s-" ++ slug ++ "/" ++ q ++ "/k0"
  match loc_id with
  | some lid => if lid ≠ "" then base ++ "l" ++ lid else base
  | none => base

/-- Model of `build_search_url` (kleinanzeigen_watcher.py:101-113). `radius_km` is
an integer in every call (`max_radius` comes through `int(...)`), so it
is modelled as `Nat` and Python's falsiness test `if radius_km:` as
`radius_km ≠ 0`. -/
def build_search_url (query location_str : String) (radius_km : Nat)
    (price_min price_max : Option Int) (loc_id : Option String) : String :=
  let b2 := search_url_stem query location_str loc_id
  let b3 := if radius_km ≠ 0 then b2 ++ "r" ++ toString radius_km else b2
  if price_min ≠ none ∨ price_max ≠ none then
    let lo := match price_min with | some v => toString v | none => ""
    let hi := match price_max with | some v => toString v | none => ""
    b3 ++ "p" ++ lo ++ "p" ++ hi
  else b3

example : build_search_url "sofa tisch" "Berlin" 25 (some 10) none (some "3331")
    = "https://www.kleinanzeigen.de/s-berlin/sofa+tisch/k0l3331r25p10p" := by decide
example : build_search_url "sofa" "" 0 none none none
    = "https://www.kleinanzeigen.de/s-deutschland/sofa/k0" := by decide
example : build_search_url "sofa" "Bad Honnef" 0 none (some 99) none
    = "https://www.kleinanzeigen.de/s-bad-honnef/sofa/k0pp99" := by decide

/-! ### Data model of the pipeline (kleinanzeigen_watcher.py:178-285) -/

/-- One extracted listing, the dict built by `fetch_listings`
(kleinanzeigen_watcher.py:178-185). -/
structure Listing where
  ad_id : String
  title : String
  price_eur : Option Nat
  km : Option Int
  meta : String
  url : String
deriving Repr, DecidableEq

/-- One active search definition, as decoded from a Searches row in
`main` (kleinanzeigen_watcher.py:225-234): query text, kind (`type`
column, lower-cased, defaulting to "generic"), price bounds, and the
vehicle km bounds (left `None` for non-vehicle kinds by the source). -/
structure SearchDef where
  query : String
  kind : String
  price_min : Option Int
  price_max : Option Int
  km_min : Option Int
  km_max : Option Int
deriving Repr, DecidableEq

/-- One row appended to the Results tab (kleinanzeigen_watcher.py:271-276),
field names following the Results header. `none` for `price_eur`/`km`
stands for the empty cell the source substitutes. -/
structure ResultRow where
  ad_id : String
  query : String
  title : String
  price_eur : Option Nat
  km : Option Int
  location : String
  url : String
  posted_at : String
  fetched_at : String
deriving Repr, DecidableEq

/-- First vehicle test (kleinanzeigen_watcher.py:254): a minimum bound is
set and the km reading is absent or below it. -/
def km_reject_min (km_min : Option Int) (km : Option Int) : Bool :=
  match km_min with
  | none => false
  | some lo => match km with | none => true | some v => v < lo

/-- Second vehicle test (kleinanzeigen_watcher.py:256): a maximum bound is
set and the km reading is absent or above it. -/
def km_reject_max (km_max : Option Int) (km : Option Int) : Bool :=
  match km_max with
  | none => false
  | some hi => match km with | none => true | some v => hi < v

/-- The distance filter as a whole (kleinanzeigen_watcher.py:253-257):
a listing passes unless the search is vehicle-kind and one of the two
rejection tests fires. -/
def passes_km_filter (sd : SearchDef) (it : Listing) : Bool :=
  !(sd.kind = "vehicle" && km_reject_min sd.km_min it.km) &&
  !(sd.kind = "vehicle" && km_reject_max sd.km_max it.km)

/-- Splitting the raw meta text on the bullet `•`
(kleinanzeigen_watcher.py:262-269): result is `(posted_at, loc_in_meta)`.
Both start out empty; a non-empty meta is split on the bullet, each part
stripped; exactly two parts fill both, exactly one part fills only the
location. -/
def split_meta (meta : String) : String × String :=
  if meta ≠ "" then
    match (splitOnChar '•' meta.data).map (fun l => pyStrip ⟨l⟩) with
    | [a, b] => (a, b)
    | [a] => ("", a)
    | _ => ("", "")
  else ("", "")

/-- The body of the per-listing loop (kleinanzeigen_watcher.py:252-277):
vehicle km filter, dedup against the known-id set, then the appended row
and the immediate known-id insertion. Returns the row (if accepted) and
the updated known-id set. -/
def process_item (sd : SearchDef) (now_iso : String) (known : List String)
    (it : Listing) : Option ResultRow × List String :=
  if sd.kind = "vehicle" && km_reject_min sd.km_min it.km then (none, known)
  else if sd.kind = "vehicle" && km_reject_max sd.km_max it.km then (none, known)
  else if it.ad_id ∈ known then (none, known)
  else
    let pr := split_meta it.meta
    (some { ad_id := it.ad_id, query := sd.query, title := it.title,
            price_eur := it.price_eur, km := it.km, location := pr.2,
            url := it.url, posted_at := pr.1, fetched_at := now_iso },
     it.ad_id :: known)

/-- The per-listing loop over one search's extracted items
(kleinanzeigen_watcher.py:252-277), threading the known-id set and
collecting accepted rows in order. -/
def process_items (sd : SearchDef) (now_iso : String) :
    List String → List Listing → List ResultRow × List String
  | known, [] => ([], known)
  | known, it :: rest =>
    let step := process_item sd now_iso known it
    let next := process_items sd now_iso step.2 rest
    (match step.1 with | some r => r :: next.1 | none => next.1, next.2)

/-- The per-search loop of `main` (kleinanzeigen_watcher.py:217-279),
restricted to its pure dedup-and-emit core: each active search comes with
the listings its fetch extracted (a failed or consent-blocked fetch
contributes the empty list), `to_append` accumulates across searches, and
the known-id set is threaded through the whole run. -/
def process_run (now_iso : String) :
    List String → List (SearchDef × List Listing) → List ResultRow × List String
  | known, [] => ([], known)
  | known, (sd, items) :: rest =>
    let here := process_items sd now_iso known items
    let next := process_run now_iso here.2 rest
    (here.1 ++ next.1, next.2)

/-! ### Results store (kleinanzeigen_watcher.py:44-66, 189-191, 281-285) -/

/-- The Results tab: its header row and its data rows. -/
structure ResultsStore where
  header : List String
  rows : List ResultRow
deriving Repr, DecidableEq

/-- The Results header written by `main` (kleinanzeigen_watcher.py:195). -/
def RESULTS_HEADERS : List String :=
  ["ad_id", "query", "title", "price_eur", "km", "location", "url", "posted_at", "fetched_at"]

/-- Model of `ensure_headers` (kleinanzeigen_watcher.py:56-66) on the Results tab:
a matching header row leaves the tab untouched; otherwise the whole tab is
cleared and the header written. -/
def ensure_headers (store : ResultsStore) : ResultsStore :=
  if store.header = RESULTS_HEADERS then store
  else { header := RESULTS_HEADERS, rows := [] }

/-- Model of `load_existing_ad_ids` (kleinanzeigen_watcher.py:189-191): the ids in
column A below the header. -/
def load_existing_ad_ids (store : ResultsStore) : List String :=
  store.rows.map (fun r => r.ad_id)

/-- Model of `write_rows_append` (kleinanzeigen_watcher.py:44-54): a no-op on an
empty row list, otherwise one append of all rows. -/
def write_rows_append (store : ResultsStore) (rows : List ResultRow) : ResultsStore :=
  if rows = [] then store else { store with rows := store.rows ++ rows }

/-- The append calls `main` issues after the search loop
(kleinanzeigen_watcher.py:281-285): none when nothing was accepted, one
single batched call otherwise. -/
def append_calls (to_append : List ResultRow) : List (List ResultRow) :=
  if to_append = [] then [] else [to_append]

/-- Replay a list of append calls against the store. -/
def apply_appends (store : ResultsStore) : List (List ResultRow) → ResultsStore
  | [] => store
  | rows :: rest => apply_appends (write_rows_append store rows) rest

/-- The whole run's effect on the Results store
(kleinanzeigen_watcher.py:194-285): ensure the header, read the known ids,
run the search loop, then flush the buffered rows through the final
conditional append. -/
def run_store_effect (store : ResultsStore) (now_iso : String)
    (fetched : List (SearchDef × List Listing)) : ResultsStore :=
  let s1 := ensure_headers store
  let run := process_run now_iso (load_existing_ad_ids s1) fetched
  apply_appends s1 (append_calls run.1)

/-! ### Consent / bot-challenge detection (debug_kleinanzeigen.py:84-86, 143-144) -/

/-- Model of `looks_like_consent` (debug_kleinanzeigen.py:84-86). -/
def looks_like_consent (html : String) : Bool :=
  let t := pyLower html
  (containsSub t "einwilligung" && containsSub t "cookies") ||
  (containsSub t "cloudflare" && containsSub t "attention required")

/-- The control flow around the predicate in the diagnostic pipeline
(debug_kleinanzeigen.py:143-147): a consent-flagged document is skipped
before any card parsing, so the fetch yields no listings; otherwise the
document is parsed. `parse_cards` is the downstream extractor. -/
def debug_search_step {α : Type} (parse_cards : String → List α) (html : String) : List α :=
  if looks_like_consent html then [] else parse_cards html

/-! ### Behaviour of `process_item` -/

/-- The accepted row built for a listing. -/
def accepted_row (sd : SearchDef) (now_iso : String) (it : Listing) : ResultRow :=
  { ad_id := it.ad_id, query := sd.query, title := it.title,
    price_eur := it.price_eur, km := it.km, location := (split_meta it.meta).2,
    url := it.url, posted_at := (split_meta it.meta).1, fetched_at := now_iso }

/-- Case analysis of one loop body: a listing failing the km filter is
dropped, a known id is dropped, and otherwise the row is emitted and the
id recorded at once. -/
theorem process_item_spec (sd : SearchDef) (now : String) (known : List String) (it : Listing) :
    (passes_km_filter sd it = false → process_item sd now known it = (none, known)) ∧
    (passes_km_filter sd it = true → it.ad_id ∈ known →
      process_item sd now known it = (none, known)) ∧
    (passes_km_filter sd it = true → it.ad_id ∉ known →
      process_item sd now known it = (some (accepted_row sd now it), it.ad_id :: known)) := by
  cases h1 : (decide (sd.kind = "vehicle") && km_reject_min sd.km_min it.km) <;>
    cases h2 : (decide (sd.kind = "vehicle") && km_reject_max sd.km_max it.km) <;>
      by_cases h3 : it.ad_id ∈ known <;>
        simp [process_item, passes_km_filter, accepted_row, h1, h2, h3]

/-- The known-id set never loses elements across one loop body. -/
theorem process_item_mono (sd : SearchDef) (now : String) (known : List String)
    (it : Listing) (x : String) (hx : x ∈ known) :
    x ∈ (process_item sd now known it).2 := by
  obtain ⟨hf, hd, ha⟩ := process_item_spec sd now known it
  cases hp : passes_km_filter sd it
  · rw [hf hp]; exact hx
  · by_cases h3 : it.ad_id ∈ known
    · rw [hd hp h3]; exact hx
    · rw [ha hp h3]; exact List.mem_cons_of_mem _ hx

/-! ### Invariants of the per-search and per-run loops -/

/-- The known-id set grows monotonically across one search's loop. -/
theorem process_items_mono (sd : SearchDef) (now : String) :
    ∀ (items : List Listing) (known : List String) (x : String), x ∈ known →
      x ∈ (process_items sd now known items).2
  | [], _, _, hx => hx
  | it :: rest, known, x, hx => by
    simp only [process_items]
    exact process_items_mono sd now rest _ x (process_item_mono sd now known it x hx)

/-- Per-search loop invariant: every emitted row's id was unknown at the
start of the loop, is known at its end, and carries the run timestamp;
emitted ids are pairwise distinct. -/
theorem process_items_invariant (sd : SearchDef) (now : String) :
    ∀ (items : List Listing) (known : List String),
      (∀ r ∈ (process_items sd now known items).1,
        r.ad_id ∉ known ∧ r.ad_id ∈ (process_items sd now known items).2 ∧
        r.fetched_at = now) ∧
      ((process_items sd now known items).1.map (fun r => r.ad_id)).Nodup
  | [], known => by simp [process_items]
  | it :: rest, known => by
    obtain ⟨hf, hd, ha⟩ := process_item_spec sd now known it
    obtain ⟨ihmem, ihnodup⟩ := process_items_invariant sd now rest
      (process_item sd now known it).2
    by_cases hp : passes_km_filter sd it = true
    case neg =>
      rw [eq_false_of_ne_true hp] at hf
      simp only [process_items, hf rfl] at *
      exact ⟨ihmem, ihnodup⟩
    case pos =>
      by_cases h3 : it.ad_id ∈ known
      case pos =>
        have he := hd hp h3
        simp only [process_items, he] at *
        exact ⟨ihmem, ihnodup⟩
      case neg =>
        have he := ha hp h3
        simp only [process_items, he] at *
        constructor
        · intro r hr
          rw [List.mem_cons] at hr
          rcases hr with rfl | hr
          · refine ⟨h3, ?_, rfl⟩
            exact process_items_mono sd now rest _ _ (List.mem_cons_self _ _)
          · obtain ⟨hr1, hr2, hr3⟩ := ihmem r hr
            exact ⟨fun hk => hr1 (List.mem_cons_of_mem _ hk), hr2, hr3⟩
        · simp only [List.map_cons, List.nodup_cons]
          refine ⟨?_, ihnodup⟩
          intro hmem
          obtain ⟨r, hrr, hrid⟩ := List.mem_map.mp hmem
          exact (ihmem r hrr).1 (by rw [hrid]; exact List.mem_cons_self _ _)

/-- The known-id set grows monotonically across the whole run. -/
theorem process_run_mono (now : String) :
    ∀ (fetched : List (SearchDef × List Listing)) (known : List String) (x : String),
      x ∈ known → x ∈ (process_run now known fetched).2
  | [], _, _, hx => hx
  | (sd, items) :: rest, known, x, hx => by
    simp only [process_run]
    exact process_run_mono now rest _ x (process_items_mono sd now items known x hx)

/-- Run-level invariant: every emitted row's id was unknown at run start,
is known at run end, and carries the run timestamp; emitted ids are
pairwise distinct across the whole run. -/
theorem process_run_invariant (now : String) :
    ∀ (fetched : List (SearchDef × List Listing)) (known : List String),
      (∀ r ∈ (process_run now known fetched).1,
        r.ad_id ∉ known ∧ r.ad_id ∈ (process_run now known fetched).2 ∧
        r.fetched_at = now) ∧
      ((process_run now known fetched).1.map (fun r => r.ad_id)).Nodup
  | [], known => by simp [process_run]
  | (sd, items) :: rest, known => by
    obtain ⟨hmem, hnodup⟩ := process_items_invariant sd now items known
    obtain ⟨ihmem, ihnodup⟩ := process_run_invariant now rest
      (process_items sd now known items).2
    simp only [process_run]
    constructor
    · intro r hr
      rw [List.mem_append] at hr
      rcases hr with hr | hr
      · obtain ⟨h1, h2, h3⟩ := hmem r hr
        exact ⟨h1, process_run_mono now rest _ _ h2, h3⟩
      · obtain ⟨h1, h2, h3⟩ := ihmem r hr
        exact ⟨fun hk => h1 (process_items_mono sd now items known _ hk), h2, h3⟩
    · rw [List.map_append, List.nodup_append]
      refine ⟨hnodup, ihnodup, ?_⟩
      intro x hx hx'
      obtain ⟨r, hr, hrid⟩ := List.mem_map.mp hx
      obtain ⟨r', hr', hrid'⟩ := List.mem_map.mp hx'
      have h2 := (hmem r hr).2.1
      have h1 := (ihmem r' hr').1
      rw [hrid] at h2
      rw [hrid'] at h1
      exact h1 h2

/-- After one search's loop, every filter-passing listing's id is in the
known-id set (it was either already known or accepted and recorded). -/
theorem process_items_passes_mem (sd : SearchDef) (now : String) :
    ∀ (items : List Listing) (known : List String) (it : Listing), it ∈ items →
      passes_km_filter sd it = true → it.ad_id ∈ (process_items sd now known items).2
  | it0 :: rest, known, it, hit, hp => by
    simp only [process_items]
    rw [List.mem_cons] at hit
    rcases hit with rfl | hit
    · obtain ⟨hf, hd, ha⟩ := process_item_spec sd now known it
      by_cases h3 : it.ad_id ∈ known
      · exact process_items_mono sd now rest _ _ (process_item_mono sd now known it _ h3)
      · rw [ha hp h3]
        exact process_items_mono sd now rest _ _ (List.mem_cons_self _ _)
    · exact process_items_passes_mem sd now rest _ it hit hp

/-- After the run, every filter-passing listing of every processed search
has its id in the final known-id set. -/
theorem process_run_passes_mem (now : String) :
    ∀ (fetched : List (SearchDef × List Listing)) (known : List String)
      (sd : SearchDef) (items : List Listing) (it : Listing),
      (sd, items) ∈ fetched → it ∈ items → passes_km_filter sd it = true →
      it.ad_id ∈ (process_run now known fetched).2
  | (sd0, items0) :: rest, known, sd, items, it, hin, hit, hp => by
    simp only [process_run]
    rw [List.mem_cons] at hin
    rcases hin with heq | hin
    · injection heq with h1 h2
      subst h1; subst h2
      exact process_run_mono now rest _ _
        (process_items_passes_mem sd now items known it hit hp)
    · exact process_run_passes_mem now rest _ sd items it hin hit hp

/-- A search whose filter-passing listings are all already known emits
nothing and leaves the known-id set unchanged. -/
theorem process_items_all_known (sd : SearchDef) (now : String) :
    ∀ (items : List Listing) (known : List String),
      (∀ it ∈ items, passes_km_filter sd it = true → it.ad_id ∈ known) →
      process_items sd now known items = ([], known)
  | [], known, _ => rfl
  | it :: rest, known, h => by
    obtain ⟨hf, hd, ha⟩ := process_item_spec sd now known it
    have hstep : process_item sd now known it = (none, known) := by
      cases hp : passes_km_filter sd it
      · exact hf hp
      · exact hd hp (h it (List.mem_cons_self _ _) hp)
    have hrest := process_items_all_known sd now rest known
      (fun x hx hp => h x (List.mem_cons_of_mem _ hx) hp)
    simp only [process_items, hstep, hrest]

/-- A run in which every filter-passing listing of every search is already
known at run start emits zero rows. -/
theorem process_run_all_known (now : String) :
    ∀ (fetched : List (SearchDef × List Listing)) (known : List String),
      (∀ sd items, (sd, items) ∈ fetched →
        ∀ it ∈ items, passes_km_filter sd it = true → it.ad_id ∈ known) →
      process_run now known fetched = ([], known)
  | [], known, _ => rfl
  | (sd, items) :: rest, known, h => by
    have hhere := process_items_all_known sd now items known
      (h sd items (List.mem_cons_self _ _))
    have hrest := process_run_all_known now rest known
      (fun sd' items' hin => h sd' items' (List.mem_cons_of_mem _ hin))
    simp only [process_run, hhere, hrest]
    rfl

/-- The known-id set after one search is exactly the emitted ids (newest
first) on top of the incoming set. -/
theorem process_items_known_ids (sd : SearchDef) (now : String) :
    ∀ (items : List Listing) (known : List String),
      (process_items sd now known items).2 =
        ((process_items sd now known items).1.map (fun r => r.ad_id)).reverse ++ known
  | [], known => by simp [process_items]
  | it :: rest, known => by
    obtain ⟨hf, hd, ha⟩ := process_item_spec sd now known it
    have hstep : process_item sd now known it = (none, known) ∨
        process_item sd now known it = (some (accepted_row sd now it), it.ad_id :: known) := by
      cases hp : passes_km_filter sd it
      · exact Or.inl (hf hp)
      · by_cases h3 : it.ad_id ∈ known
        · exact Or.inl (hd hp h3)
        · exact Or.inr (ha hp h3)
    rcases hstep with hstep | hstep
    · simp only [process_items, hstep]
      exact process_items_known_ids sd now rest known
    · simp only [process_items, hstep]
      rw [process_items_known_ids sd now rest (it.ad_id :: known)]
      simp [accepted_row]

/-- The known-id set after the run is exactly the emitted ids (newest
first) on top of the run-start set. -/
theorem process_run_known_ids (now : String) :
    ∀ (fetched : List (SearchDef × List Listing)) (known : List String),
      (process_run now known fetched).2 =
        ((process_run now known fetched).1.map (fun r => r.ad_id)).reverse ++ known
  | [], known => by simp [process_run]
  | (sd, items) :: rest, known => by
    simp only [process_run]
    rw [process_run_known_ids now rest (process_items sd now known items).2,
      process_items_known_ids sd now items known]
    simp

/-! ### The claims -/

/-- Claim C4: `parse_price_eur` maps "Zu verschenken" to 0 and
"1.250 €" to 1250, maps the empty string and `None` to an absent price,
and is total on arbitrary text (the one fallible step, `int(num)`, is
caught and turned into an absent price). -/
theorem C4_parse_price_eur (s : String) :
    parse_price_eur (some "Zu verschenken") = some 0 ∧
    parse_price_eur (some "1.250 €") = some 1250 ∧
    parse_price_eur (some "") = none ∧
    parse_price_eur none = none ∧
    (parse_price_eur (some s) = none ∨ ∃ n, parse_price_eur (some s) = some n) := by
  refine ⟨by decide, by decide, by decide, rfl, ?_⟩
  cases h : parse_price_eur (some s)
  · exact Or.inl rfl
  · exact Or.inr ⟨_, rfl⟩

/-- Claim C3: with radius 0 and no price bound the URL is exactly the
stem (no radius token, no price token); with radius r ≠ 0 the token `r`
followed by the decimal of r is appended; with price_min = 10 and
price_max = None the price token is `p10p` — lower bound "10", upper
bound empty — and it is only emitted when some bound is given. -/
theorem C3_build_search_url (query location : String) (loc_id : Option String) :
    build_search_url query location 0 none none loc_id
      = search_url_stem query location loc_id ∧
    (∀ r : Nat, r ≠ 0 → build_search_url query location r none none loc_id
      = search_url_stem query location loc_id ++ "r" ++ toString r) ∧
    (∀ r : Nat, r ≠ 0 → build_search_url query location r (some 10) none loc_id
      = search_url_stem query location loc_id ++ "r" ++ toString r ++ "p" ++ "10" ++ "p" ++ "") ∧
    build_search_url query location 0 (some 10) none loc_id
      = search_url_stem query location loc_id ++ "p" ++ "10" ++ "p" ++ "" := by
  refine ⟨by simp [build_search_url], fun r hr => by simp [build_search_url, hr],
    fun r hr => ?_, ?_⟩
  · simp [build_search_url, hr, String.append_empty]
    rfl
  · simp [build_search_url, String.append_empty]
    rfl

/-- A concrete instantiation of `C3_build_search_url` at radius 25. -/
theorem C3_build_search_url_witness :
    build_search_url "sofa" "Berlin" 0 none none (some "3331")
      = search_url_stem "sofa" "Berlin" (some "3331") ∧
    build_search_url "sofa" "Berlin" 25 none none (some "3331")
      = search_url_stem "sofa" "Berlin" (some "3331") ++ "r" ++ toString 25 ∧
    build_search_url "sofa" "Berlin" 25 (some 10) none (some "3331")
      = search_url_stem "sofa" "Berlin" (some "3331") ++ "r" ++ toString 25
          ++ "p" ++ "10" ++ "p" ++ "" ∧
    build_search_url "sofa" "Berlin" 0 (some 10) none (some "3331")
      = search_url_stem "sofa" "Berlin" (some "3331") ++ "p" ++ "10" ++ "p" ++ "" := by
  obtain ⟨h1, h2, h3, h4⟩ := C3_build_search_url "sofa" "Berlin" (some "3331")
  exact ⟨h1, h2 25 (by decide), h3 25 (by decide), h4⟩

/-- Claim C2: under a vehicle-kind search, a set minimum bound rejects a
listing whose distance is absent or below it; a set maximum bound rejects
a listing whose distance is absent or above it; and an absent distance
with neither bound set passes the distance filter. -/
theorem C2_vehicle_km_filter (sd : SearchDef) (now : String) (known : List String)
    (it : Listing) (h : sd.kind = "vehicle") :
    (∀ lo, sd.km_min = some lo → (it.km = none ∨ ∃ v, it.km = some v ∧ v < lo) →
      process_item sd now known it = (none, known)) ∧
    (∀ hi, sd.km_max = some hi → (it.km = none ∨ ∃ v, it.km = some v ∧ hi < v) →
      process_item sd now known it = (none, known)) ∧
    (it.km = none → sd.km_min = none → sd.km_max = none →
      passes_km_filter sd it = true) := by
  refine ⟨?_, ?_, ?_⟩
  · intro lo hlo hkm
    have hrej : km_reject_min sd.km_min it.km = true := by
      rcases hkm with hkm | ⟨v, hv, hlt⟩
      · simp [km_reject_min, hlo, hkm]
      · simp [km_reject_min, hlo, hv, hlt]
    simp [process_item, h, hrej]
  · intro hi hhi hkm
    have hrej : km_reject_max sd.km_max it.km = true := by
      rcases hkm with hkm | ⟨v, hv, hlt⟩
      · simp [km_reject_max, hhi, hkm]
      · simp [km_reject_max, hhi, hv, hlt]
    cases hmin : km_reject_min sd.km_min it.km <;>
      simp [process_item, h, hrej, hmin]
  · intro hkm hmin hmax
    simp [passes_km_filter, km_reject_min, km_reject_max, hmin, hmax]

/-- A vehicle search with km_min = 10 and no km_max. -/
def demo_vehicle_sd : SearchDef :=
  { query := "golf", kind := "vehicle", price_min := none, price_max := none,
    km_min := some 10, km_max := none }

/-- The same search with no km bounds at all. -/
def demo_vehicle_sd_nobounds : SearchDef :=
  { demo_vehicle_sd with km_min := none }

/-- A listing without a km reading. -/
def demo_nokm_listing : Listing :=
  { ad_id := "1234567890", title := "Golf", price_eur := some 500,
    km := none, meta := "heute • Berlin", url := "https://example.org/a" }

/-- Concrete instantiation of `C2_vehicle_km_filter`: with km_min = 10 the
km-less listing is rejected; with no bounds it passes the distance
filter. -/
theorem C2_vehicle_km_filter_witness :
    process_item demo_vehicle_sd "t" [] demo_nokm_listing = (none, []) ∧
    passes_km_filter demo_vehicle_sd_nobounds demo_nokm_listing = true := by
  obtain ⟨h1, _, _⟩ := C2_vehicle_km_filter demo_vehicle_sd "t" [] demo_nokm_listing rfl
  obtain ⟨_, _, h3⟩ :=
    C2_vehicle_km_filter demo_vehicle_sd_nobounds "t" [] demo_nokm_listing rfl
  exact ⟨h1 10 rfl (Or.inl rfl), h3 rfl rfl rfl⟩

/-- Claim C1: over a whole run, the appended rows carry pairwise distinct
ids and no id that was already in the Results store at run start. -/
theorem C1_run_dedup (now : String) (known : List String)
    (fetched : List (SearchDef × List Listing)) :
    ((process_run now known fetched).1.map (fun r => r.ad_id)).Nodup ∧
    ∀ r ∈ (process_run now known fetched).1, r.ad_id ∉ known := by
  obtain ⟨hmem, hnodup⟩ := process_run_invariant now fetched known
  exact ⟨hnodup, fun r hr => (hmem r hr).1⟩

/-- A generic search definition. -/
def demo_generic_sd : SearchDef :=
  { query := "sofa", kind := "generic", price_min := none, price_max := none,
    km_min := none, km_max := none }

/-- A fresh listing. -/
def demo_listing_a : Listing :=
  { ad_id := "1000001", title := "A", price_eur := some 10, km := none,
    meta := "heute • Berlin", url := "https://example.org/a" }

/-- The same ad id seen a second time in the same search. -/
def demo_listing_a2 : Listing := { demo_listing_a with title := "A again" }

/-- A listing whose id is already in the store at run start. -/
def demo_listing_old : Listing :=
  { demo_listing_a with ad_id := "9999999", title := "Old" }

/-- A second fresh listing. -/
def demo_listing_b : Listing := { demo_listing_a with ad_id := "1000002", title := "B" }

/-- Two searches whose fetches overlap in ad ids. -/
def demo_fetched : List (SearchDef × List Listing) :=
  [(demo_generic_sd, [demo_listing_a, demo_listing_a2, demo_listing_old]),
   (demo_generic_sd, [demo_listing_a, demo_listing_b])]

/-- Concrete instantiation of `C1_run_dedup` on `demo_fetched` with the
id "9999999" already in the store. -/
theorem C1_run_dedup_witness :
    ((process_run "t" ["9999999"] demo_fetched).1.map (fun r => r.ad_id)).Nodup ∧
    ∀ r ∈ (process_run "t" ["9999999"] demo_fetched).1, r.ad_id ∉ ["9999999"] :=
  C1_run_dedup "t" ["9999999"] demo_fetched

/-- Claim C5: running the dedup-and-emit pipeline a second time over the
same fetched listings, starting from exactly the ids the first run (begun
with an empty known-id set) emitted, yields zero new rows. -/
theorem C5_second_run_empty (now1 now2 : String)
    (fetched : List (SearchDef × List Listing)) :
    (process_run now2 ((process_run now1 [] fetched).1.map (fun r => r.ad_id))
      fetched).1 = [] := by
  have hall : ∀ sd items, (sd, items) ∈ fetched →
      ∀ it ∈ items, passes_km_filter sd it = true →
        it.ad_id ∈ (process_run now1 [] fetched).1.map (fun r => r.ad_id) := by
    intro sd items hin it hit hp
    have h := process_run_passes_mem now1 fetched [] sd items it hin hit hp
    rw [process_run_known_ids now1 fetched []] at h
    simpa using h
  rw [process_run_all_known now2 fetched _ hall]

/-- An accepted listing's row equals `accepted_row`. -/
theorem process_item_some (sd : SearchDef) (now : String) (known : List String)
    (it : Listing) (r : ResultRow)
    (h : (process_item sd now known it).1 = some r) :
    r = accepted_row sd now it := by
  obtain ⟨hf, hd, ha⟩ := process_item_spec sd now known it
  cases hp : passes_km_filter sd it
  · rw [hf hp] at h; cases h
  · by_cases h3 : it.ad_id ∈ known
    · rw [hd hp h3] at h; cases h
    · rw [ha hp h3] at h
      exact (Option.some.inj h).symm

/-- Claim C6: in the pipeline step that consumes a fetched document
(diagnostic variant, where the predicate is invoked), a document flagged
by `looks_like_consent` is never handed to the card parser — the fetch
yields zero listings — and a search with zero listings emits zero
ResultRows and leaves the known-id set unchanged. -/
theorem C6_consent_interstitial (parse_cards : String → List Listing) (html : String)
    (sd : SearchDef) (now : String) (known : List String)
    (h : looks_like_consent html = true) :
    debug_search_step parse_cards html = [] ∧
    process_items sd now known (debug_search_step parse_cards html) = ([], known) := by
  have h1 : debug_search_step parse_cards html = [] := by
    simp [debug_search_step, h]
  refine ⟨h1, ?_⟩
  rw [h1]
  rfl

/-- A consent interstitial document. -/
def demo_consent_html : String :=
  "<html>Einwilligung erforderlich: wir verwenden Cookies.</html>"

/-- Concrete instantiation of `C6_consent_interstitial`: even a card
parser that would find a listing in the markup yields nothing on the
flagged document. -/
theorem C6_consent_interstitial_witness :
    debug_search_step (fun _ => [demo_listing_a]) demo_consent_html = [] ∧
    process_items demo_generic_sd "t" []
      (debug_search_step (fun _ => [demo_listing_a]) demo_consent_html) = ([], []) :=
  C6_consent_interstitial (fun _ => [demo_listing_a]) demo_consent_html
    demo_generic_sd "t" [] (by decide)

/-- Claim C7: for every accepted listing, the raw meta string is split on
the bullet into stripped parts — two parts become (posted_at, location),
one part becomes ("", location), and an empty meta or a split into more
than two parts leaves both fields empty in the emitted row. -/
theorem C7_meta_split (sd : SearchDef) (now : String) (known : List String)
    (it : Listing) (r : ResultRow)
    (h : (process_item sd now known it).1 = some r) :
    (∀ a b, it.meta ≠ "" →
      (splitOnChar '•' it.meta.data).map (fun l => pyStrip ⟨l⟩) = [a, b] →
      r.posted_at = a ∧ r.location = b) ∧
    (∀ a, it.meta ≠ "" →
      (splitOnChar '•' it.meta.data).map (fun l => pyStrip ⟨l⟩) = [a] →
      r.posted_at = "" ∧ r.location = a) ∧
    ((it.meta = "" ∨
        2 < ((splitOnChar '•' it.meta.data).map (fun l => pyStrip ⟨l⟩)).length) →
      r.posted_at = "" ∧ r.location = "") := by
  have hr := process_item_some sd now known it r h
  subst hr
  refine ⟨?_, ?_, ?_⟩
  · intro a b hne hparts
    simp [accepted_row, split_meta, hne, hparts]
  · intro a hne hparts
    simp [accepted_row, split_meta, hne, hparts]
  · intro hcase
    rcases hcase with hcase | hcase
    · simp [accepted_row, split_meta, hcase]
    · by_cases hne : it.meta = ""
      · simp [accepted_row, split_meta, hne]
      · rcases hp : (splitOnChar '•' it.meta.data).map (fun l => pyStrip ⟨l⟩) with
          _ | ⟨a, _ | ⟨b, _ | ⟨c, t⟩⟩⟩
        · simp [accepted_row, split_meta, hne, hp]
        · rw [hp] at hcase; simp at hcase
        · rw [hp] at hcase; simp at hcase
        · simp [accepted_row, split_meta, hne, hp]

/-- Concrete instantiation of `C7_meta_split` on a "heute • Berlin"
meta string. -/
theorem C7_meta_split_witness :
    (accepted_row demo_generic_sd "t" demo_listing_a).posted_at = "heute" ∧
    (accepted_row demo_generic_sd "t" demo_listing_a).location = "Berlin" := by
  obtain ⟨h1, _, _⟩ := C7_meta_split demo_generic_sd "t" [] demo_listing_a
    (accepted_row demo_generic_sd "t" demo_listing_a) (by decide)
  exact h1 "heute" "Berlin" (by decide) (by decide)

/-- Claim C8: the run buffers every accepted row and issues at most one
append call, exactly at the end; with zero accepted rows no append call
is issued and the Results rows are untouched beyond the header-ensuring
step; otherwise the single call appends all buffered rows at once. -/
theorem C8_single_flush (store : ResultsStore) (now : String)
    (fetched : List (SearchDef × List Listing)) :
    (append_calls
      (process_run now (load_existing_ad_ids (ensure_headers store)) fetched).1).length ≤ 1 ∧
    ((process_run now (load_existing_ad_ids (ensure_headers store)) fetched).1 = [] →
      append_calls
        (process_run now (load_existing_ad_ids (ensure_headers store)) fetched).1 = [] ∧
      run_store_effect store now fetched = ensure_headers store) ∧
    ((process_run now (load_existing_ad_ids (ensure_headers store)) fetched).1 ≠ [] →
      append_calls
        (process_run now (load_existing_ad_ids (ensure_headers store)) fetched).1 =
        [(process_run now (load_existing_ad_ids (ensure_headers store)) fetched).1]) ∧
    (run_store_effect store now fetched).rows =
      (ensure_headers store).rows ++
        (process_run now (load_existing_ad_ids (ensure_headers store)) fetched).1 := by
  by_cases h : (process_run now (load_existing_ad_ids (ensure_headers store)) fetched).1 = []
  · refine ⟨?_, fun _ => ⟨?_, ?_⟩, fun hne => absurd h hne, ?_⟩ <;>
      simp [append_calls, run_store_effect, apply_appends, write_rows_append, h]
  · refine ⟨?_, fun he => absurd he h, fun _ => ?_, ?_⟩ <;>
      simp [append_calls, run_store_effect, apply_appends, write_rows_append, h]

/-- A Results row already in the store before the run. -/
def demo_old_row : ResultRow :=
  { ad_id := "9999999", query := "sofa", title := "Old", price_eur := none,
    km := none, location := "Berlin", url := "https://example.org/old",
    posted_at := "", fetched_at := "s" }

/-- A Results store with a correct header and one prior row. -/
def demo_store : ResultsStore :=
  { header := RESULTS_HEADERS, rows := [demo_old_row] }

/-- Concrete instantiation of `C8_single_flush`: a run over
`demo_fetched` flushes its rows in one batch after the prior rows, and a
run over zero searches leaves the store unchanged. -/
theorem C8_single_flush_witness :
    (run_store_effect demo_store "t" demo_fetched).rows =
      (ensure_headers demo_store).rows ++
        (process_run "t" (load_existing_ad_ids (ensure_headers demo_store))
          demo_fetched).1 ∧
    (append_calls
      (process_run "t" (load_existing_ad_ids (ensure_headers demo_store)) []).1 = [] ∧
      run_store_effect demo_store "t" [] = ensure_headers demo_store) := by
  have h1 := C8_single_flush demo_store "t" demo_fetched
  have h2 := C8_single_flush demo_store "t" []
  exact ⟨h1.2.2.2, h2.2.1 rfl⟩

/-- Claim C9: every row emitted in a run carries the one timestamp taken
before the first search was processed. -/
theorem C9_single_timestamp (now : String) (known : List String)
    (fetched : List (SearchDef × List Listing)) :
    ∀ r ∈ (process_run now known fetched).1, r.fetched_at = now := by
  intro r hr
  exact ((process_run_invariant now fetched known).1 r hr).2.2

/-- Concrete instantiation of `C9_single_timestamp` at the first row the
demo run emits. -/
theorem C9_single_timestamp_witness :
    (accepted_row demo_generic_sd "t" demo_listing_a).fetched_at = "t" :=
  C9_single_timestamp "t" ["9999999"] demo_fetched
    (accepted_row demo_generic_sd "t" demo_listing_a) (by decide)

/-- Claim C10: the accept/reject decision and the known-id update of the
dedup-and-filter stage depend neither on the listing's extracted price
nor on the search's price bounds; those bounds only reach the URL
builder. -/
theorem C10_price_independent (sd : SearchDef) (now : String) (known : List String)
    (it : Listing) (p q : Option Nat) (pm pM pm' pM' : Option Int) :
    ((process_item { sd with price_min := pm, price_max := pM } now known
        { it with price_eur := p }).1.isSome
      = (process_item { sd with price_min := pm', price_max := pM' } now known
        { it with price_eur := q }).1.isSome) ∧
    ((process_item { sd with price_min := pm, price_max := pM } now known
        { it with price_eur := p }).2
      = (process_item { sd with price_min := pm', price_max := pM' } now known
        { it with price_eur := q }).2) := by
  by_cases h1 : (decide (sd.kind = "vehicle") && km_reject_min sd.km_min it.km) = true <;>
    by_cases h2 : (decide (sd.kind = "vehicle") && km_reject_max sd.km_max it.km) = true <;>
      by_cases h3 : it.ad_id ∈ known <;>
        simp [process_item, h1, h2, h3]

end KW
